import Mathlib

/-!
Verification of the response-parsing / normalization pipeline and the editable-table
component of the DATN-BA-Process-FE repository.

The embedding models:
* the JavaScript value universe reachable from `JSON.parse` (`Json`), together with
  JS truthiness and the `a || b` defaulting idiom;
* `ChatGPTService.callChatGPTAPI` from `src/unnamed/part_003` (markdown-fence stripping,
  the four JSON parse attempts, object unwrapping, and per-record normalization);
* `TableView` edit-mode state (`handleEdit` / `handleCancel` / `handleFieldChange` /
  `handleSave`) and the `ProjectDetailScreen.handleSave` save collaborator;
* the two CSV exporters (`ResultDisplay.handleExportCSV`, `ProjectDetailScreen.exportToCSV`)
  and a quote-aware CSV re-parser written from the specification's description of the
  round-trip check.

Model restrictions (noted where relevant): JSON numbers are integers (no fraction or
exponent literals and no \uXXXX string escapes), character classes for whitespace and
lower-casing are ASCII, and `NaN` does not arise.
-/

namespace BAProc

/-- The backtick character, used by the markdown fence handling. -/
def btick : Char := Char.ofNat 96

/-! ### JavaScript value model -/

/-- A JavaScript value as producible by `JSON.parse`: `null`, booleans, numbers
(restricted to integers in this model), strings, arrays and objects.  Object fields
keep their textual order; duplicate keys are resolved by `getField` taking the last
occurrence, as `JSON.parse` does. -/
inductive Json where
  | null : Json
  | bool (b : Bool) : Json
  | num (n : Int) : Json
  | str (s : String) : Json
  | arr (elems : List Json) : Json
  | obj (fields : List (String × Json)) : Json

/-- JS truthiness of a defined value (`NaN` is outside the model). -/
def truthy : Json → Bool
  | .null => false
  | .bool b => b
  | .num n => n != 0
  | .str s => s != ""
  | .arr _ => true
  | .obj _ => true

/-- Property access `item.key`: `some` value for an object that has the key (last
occurrence wins, as in `JSON.parse`), `none` (i.e. `undefined`) otherwise. -/
def getField : Json → String → Option Json
  | .obj fields, key => fields.foldl (fun acc p => if p.1 = key then some p.2 else acc) none
  | _, _ => none

/-- Truthiness of a possibly-`undefined` value. -/
def truthyO : Option Json → Bool
  | none => false
  | some v => truthy v

/-- The JS defaulting idiom `v || d` where the default `d` is a defined value. -/
def jsOrD (v : Option Json) (d : Json) : Json :=
  match v with
  | some x => if truthy x then x else d
  | none => d

/-- The JS chaining idiom `a || b` on possibly-`undefined` values. -/
def jsOrO (a b : Option Json) : Option Json :=
  if truthyO a then a else b

/-- Whether a value is a (non-array) object. -/
def Json.isObj : Json → Bool
  | .obj _ => true
  | _ => false

/-! ### Character utilities (ASCII fragment of the JS string primitives) -/

/-- The whitespace characters recognised by the model (ASCII fragment of `\s`). -/
def isWsChar (c : Char) : Bool := c = ' ' || c = '\t' || c = '\n' || c = '\r'

/-- `String.prototype.trim` on a character list. -/
def trimChars (cs : List Char) : List Char :=
  ((cs.dropWhile isWsChar).reverse.dropWhile isWsChar).reverse

/-- ASCII `toLowerCase` on one character. -/
def asciiLower (c : Char) : Char :=
  if 'A' ≤ c && c ≤ 'Z' then Char.ofNat (c.toNat + 32) else c

/-- ASCII `toUpperCase` on one character. -/
def asciiUpper (c : Char) : Char :=
  if 'a' ≤ c && c ≤ 'z' then Char.ofNat (c.toNat - 32) else c

/-- ASCII `toLowerCase` on a string. -/
def lowerStr (s : String) : String := String.mk (s.data.map asciiLower)

/-- Does `pat` occur as a contiguous substring of the list? -/
def containsSub (pat : List Char) : List Char → Bool
  | [] => pat.isEmpty
  | c :: rest => pat.isPrefixOf (c :: rest) || containsSub pat rest

/-- `replace(pat, repl)` with a string (not regex) pattern: JS replaces only the
first occurrence. -/
def replaceFirstList (pat repl : List Char) : List Char → List Char
  | [] => []
  | c :: rest =>
    if pat.isPrefixOf (c :: rest) then repl ++ (c :: rest).drop pat.length
    else c :: replaceFirstList pat repl rest

/-! ### JSON parser (model of `JSON.parse`)

Fuel-indexed recursive-descent parser.  Grammar restrictions of the model: numbers
are integers with an optional minus sign and no leading zeros; the string escapes
handled are the common ones and `\uXXXX` is rejected. -/

/-- Consume a literal token. -/
def parseLiteral (lit : List Char) (cs : List Char) : Option (List Char) :=
  if lit.isPrefixOf cs then some (cs.drop lit.length) else none

/-- ASCII digit test. -/
def isDigitCh (c : Char) : Bool := '0' ≤ c && c ≤ '9'

/-- Value of an ASCII digit. -/
def digitVal (c : Char) : Nat := c.toNat - 48

/-- Parse a non-empty digit run (rejecting leading zeros, as JSON does). -/
def parseNatTok (cs : List Char) : Option (Nat × List Char) :=
  let ds := cs.takeWhile isDigitCh
  if ds.isEmpty then none
  else if ds.length > 1 && ds.head? = some '0' then none
  else some (ds.foldl (fun acc c => acc * 10 + digitVal c) 0, cs.drop ds.length)

/-- Parse the body of a JSON string after the opening quote, producing the decoded
string and the remainder after the closing quote. -/
def parseStringBody : Nat → List Char → List Char → Option (String × List Char)
  | 0, _, _ => none
  | _ + 1, [], _ => none
  | fuel + 1, c :: rest, acc =>
    if c = '\"' then some (String.mk acc.reverse, rest)
    else if c = '\\' then
      match rest with
      | [] => none
      | e :: rest2 =>
        if e = '\"' then parseStringBody fuel rest2 ('\"' :: acc)
        else if e = '\\' then parseStringBody fuel rest2 ('\\' :: acc)
        else if e = '/' then parseStringBody fuel rest2 ('/' :: acc)
        else if e = 'n' then parseStringBody fuel rest2 ('\n' :: acc)
        else if e = 't' then parseStringBody fuel rest2 ('\t' :: acc)
        else if e = 'r' then parseStringBody fuel rest2 ('\r' :: acc)
        else none
    else if c.toNat < 32 then none
    else parseStringBody fuel rest (c :: acc)

mutual

/-- Parse one JSON value (leading whitespace allowed), returning it and the rest. -/
def parseValue : Nat → List Char → Option (Json × List Char)
  | 0, _ => none
  | fuel + 1, cs0 =>
    let cs := cs0.dropWhile isWsChar
    match cs with
    | [] => none
    | c :: rest =>
      if c = '\x7b' then
        match rest.dropWhile isWsChar with
        | '\x7d' :: rest2 => some (Json.obj [], rest2)
        | rest2 => parseObjectItems fuel rest2 []
      else if c = '[' then
        match rest.dropWhile isWsChar with
        | ']' :: rest2 => some (Json.arr [], rest2)
        | rest2 => parseArrayItems fuel rest2 []
      else if c = '\"' then
        match parseStringBody (rest.length + 1) rest [] with
        | some (s, rest2) => some (Json.str s, rest2)
        | none => none
      else if c = 't' then
        match parseLiteral "true".data cs with
        | some rest2 => some (Json.bool true, rest2)
        | none => none
      else if c = 'f' then
        match parseLiteral "false".data cs with
        | some rest2 => some (Json.bool false, rest2)
        | none => none
      else if c = 'n' then
        match parseLiteral "null".data cs with
        | some rest2 => some (Json.null, rest2)
        | none => none
      else if c = '-' then
        match parseNatTok rest with
        | some (n, rest2) => some (Json.num (-(n : Int)), rest2)
        | none => none
      else
        match parseNatTok cs with
        | some (n, rest2) => some (Json.num (n : Int), rest2)
        | none => none

/-- Parse the items of a non-empty JSON array (position: just after `[` or a `,`). -/
def parseArrayItems : Nat → List Char → List Json → Option (Json × List Char)
  | 0, _, _ => none
  | fuel + 1, cs, acc =>
    match parseValue fuel cs with
    | none => none
    | some (v, rest) =>
      match rest.dropWhile isWsChar with
      | ',' :: rest2 => parseArrayItems fuel rest2 (acc ++ [v])
      | ']' :: rest2 => some (Json.arr (acc ++ [v]), rest2)
      | _ => none

/-- Parse the members of a non-empty JSON object (position: just after `\x7b` or a `,`,
whitespace already skipped). -/
def parseObjectItems : Nat → List Char → List (String × Json) → Option (Json × List Char)
  | 0, _, _ => none
  | fuel + 1, cs, acc =>
    match cs with
    | '\"' :: rest =>
      match parseStringBody (rest.length + 1) rest [] with
      | some (k, rest2) =>
        match rest2.dropWhile isWsChar with
        | ':' :: rest3 =>
          match parseValue fuel rest3 with
          | some (v, rest4) =>
            match rest4.dropWhile isWsChar with
            | ',' :: rest5 => parseObjectItems fuel (rest5.dropWhile isWsChar) (acc ++ [(k, v)])
            | '\x7d' :: rest5 => some (Json.obj (acc ++ [(k, v)]), rest5)
            | _ => none
          | none => none
        | _ => none
      | none => none
    | _ => none

end

/-- `JSON.parse` on a character list: parse one value and require only trailing
whitespace after it. -/
def jsonParse (cs : List Char) : Option Json :=
  match parseValue (2 * cs.length + 4) cs with
  | some (v, rest) => if (rest.dropWhile isWsChar).isEmpty then some v else none
  | none => none

/-! ### Markdown fence stripping

Model of `part_003` lines 362-375: if the trimmed completion contains a triple
backtick, the code first removes an opening fence `(three backticks)(json|JSON)?\s*\n?`
anchored at a line start (multiline regex, first match), then a closing fence
`\n?(three backticks)\s*$` (multiline, first match), and finally, if a complete
fenced block is still present, keeps only its trimmed inner text. -/

/-- Does the list contain a triple backtick? -/
def containsTripleBacktick (cs : List Char) : Bool :=
  containsSub [btick, btick, btick] cs

/-- If `cs` begins with an opening fence (three backticks, optional `json`/`JSON` tag),
return the remainder after the fence and the whitespace run that follows it
(the regex tail `\s*\n?` consumes exactly that run, since `\s` includes newlines). -/
def fenceOpenAfter (cs : List Char) : Option (List Char) :=
  match cs with
  | c1 :: c2 :: c3 :: rest =>
    if c1 = btick ∧ c2 = btick ∧ c3 = btick then
      let rest2 :=
        if "json".data.isPrefixOf rest then rest.drop 4
        else if "JSON".data.isPrefixOf rest then rest.drop 4
        else rest
      some (rest2.dropWhile isWsChar)
    else none
  | _ => none

/-- Scan for the first line start (position after a newline) at which an opening fence
matches, and remove the matched span, keeping everything before it. -/
def removeLeadingFenceFrom : List Char → List Char
  | [] => []
  | c :: rest =>
    if c = '\n' then
      match fenceOpenAfter rest with
      | some r => '\n' :: r
      | none => '\n' :: removeLeadingFenceFrom rest
    else c :: removeLeadingFenceFrom rest

/-- Remove the first line-anchored opening fence (the very start of the string is
also a line start). -/
def removeLeadingFence (cs : List Char) : List Char :=
  match fenceOpenAfter cs with
  | some r => r
  | none => removeLeadingFenceFrom cs

/-- Greedy tail of the closing-fence regex after the backticks: consume the
whitespace run and require a line boundary, returning the remainder at the
boundary the greedy `\s*` backtracks to. -/
def wsRunEnd (cs : List Char) : Option (List Char) :=
  let run := cs.takeWhile isWsChar
  let after := cs.dropWhile isWsChar
  if after.isEmpty then some []
  else if run.contains '\n' then
    some ('\n' :: (run.reverse.takeWhile (fun c => c != '\n')).reverse ++ after)
  else none

/-- If `cs` begins with a closing fence (three backticks then `\s*` reaching a line
boundary), return the text remaining after the matched span. -/
def fenceCloseAfter (cs : List Char) : Option (List Char) :=
  match cs with
  | c1 :: c2 :: c3 :: rest =>
    if c1 = btick ∧ c2 = btick ∧ c3 = btick then wsRunEnd rest else none
  | _ => none

/-- Remove the first closing fence `\n?(three backticks)\s*$` found scanning left to
right, keeping the text before and after the matched span. -/
def removeTrailingFence : List Char → List Char
  | [] => []
  | c :: rest =>
    if c = '\n' then
      match fenceCloseAfter rest with
      | some rem => rem
      | none => '\n' :: removeTrailingFence rest
    else
      match fenceCloseAfter (c :: rest) with
      | some rem => rem
      | none => c :: removeTrailingFence rest

/-- Split at the first triple backtick: `some (before, after)` where `after` starts
just past the backticks. -/
def splitAtTriple : List Char → Option (List Char × List Char)
  | [] => none
  | c :: rest =>
    if c = btick then
      match rest with
      | c2 :: c3 :: rest2 =>
        if c2 = btick ∧ c3 = btick then some ([], rest2)
        else
          match splitAtTriple rest with
          | some (pre, post) => some (c :: pre, post)
          | none => none
      | _ =>
        match splitAtTriple rest with
        | some (pre, post) => some (c :: pre, post)
        | none => none
    else
      match splitAtTriple rest with
      | some (pre, post) => some (c :: pre, post)
      | none => none

/-- Model of the regex `(three backticks)(json|JSON)?\s*\n?([lazy any]*)\n?(three
backticks)`: the inner text of the first complete fenced block, if any.  The caller
trims the result, so the whitespace handling around the lazy group is approximated
by a whitespace strip. -/
def codeBlockInner (cs : List Char) : Option (List Char) :=
  match splitAtTriple cs with
  | none => none
  | some (_, afterOpen) =>
    let afterTag :=
      if "json".data.isPrefixOf afterOpen then afterOpen.drop 4
      else if "JSON".data.isPrefixOf afterOpen then afterOpen.drop 4
      else afterOpen
    let body := afterTag.dropWhile isWsChar
    match splitAtTriple body with
    | none => none
    | some (inner, _) =>
      if inner.getLast? = some '\n' then some inner.dropLast else some inner

/-- `part_003` lines 362-375: markdown-fence stripping of the trimmed completion. -/
def stripFences (cs : List Char) : List Char :=
  if containsTripleBacktick cs then
    let s1 := removeLeadingFence cs
    let s2 := removeTrailingFence s1
    match codeBlockInner s2 with
    | some inner => trimChars inner
    | none => s2
  else cs

/-! ### The four parse attempts (`part_003` lines 377-428) -/

/-- Error thrown when an extracted JSON candidate still fails to parse. -/
def msgParseFail : String :=
  "Không thể phân tích dữ liệu từ ChatGPT. Vui lòng thử lại với ảnh khác."

/-- Error thrown when no JSON array or object pattern is found at all. -/
def msgNoJson : String :=
  "ChatGPT không trả về dữ liệu hợp lệ. Vui lòng thử lại với ảnh khác."

/-- Error thrown when the parsed value cannot be unwrapped to an array. -/
def msgNotArray : String :=
  "ChatGPT trả về dữ liệu không đúng định dạng. Vui lòng thử lại."

/-- Prefix of `cs` up to and including the last occurrence of `ch`. -/
def upToLast (ch : Char) (cs : List Char) : List Char :=
  (cs.reverse.dropWhile (fun c => c != ch)).reverse

/-- The regex `(\[[any]*\])` (greedy): from the first `[` to the last `]` after it. -/
def arraySub : List Char → Option (List Char)
  | [] => none
  | c :: rest =>
    if c = '[' && rest.contains ']' then some ('[' :: upToLast ']' rest)
    else arraySub rest

/-- The regex `(\x7b[any]*\x7d|\[[any]*\])` (alternation, leftmost match, greedy). -/
def anyJsonSub : List Char → Option (List Char)
  | [] => none
  | c :: rest =>
    if c = '\x7b' && rest.contains '\x7d' then some ('\x7b' :: upToLast '\x7d' rest)
    else if c = '[' && rest.contains ']' then some ('[' :: upToLast ']' rest)
    else anyJsonSub rest

/-- One pass of the global replace `,\s*([\x7d\]])` with `$1`: drop each comma that
is followed by optional whitespace and a closing bracket, resuming the scan after
the bracket. -/
def stripTCFuel : Nat → List Char → List Char
  | 0, cs => cs
  | _ + 1, [] => []
  | fuel + 1, c :: rest =>
    if c = ',' then
      let ws := rest.takeWhile isWsChar
      let after := rest.dropWhile isWsChar
      match after with
      | b :: rest2 =>
        if b = '\x7d' || b = ']' then ws ++ b :: stripTCFuel fuel rest2
        else ',' :: stripTCFuel fuel rest
      | [] => ',' :: stripTCFuel fuel rest
    else c :: stripTCFuel fuel rest

/-- Remove trailing commas before closing brackets (`part_003` line 399). -/
def stripTrailingCommas (cs : List Char) : List Char := stripTCFuel cs.length cs

/-- The four parse attempts of `part_003` lines 377-428, in order, first success
wins; the error messages are the literal strings thrown by the code. -/
def parseAttempts (cs : List Char) : Except String Json :=
  match jsonParse cs with
  | some v => .ok v
  | none =>
    match arraySub cs with
    | some sub =>
      match jsonParse sub with
      | some v => .ok v
      | none =>
        match jsonParse (stripTrailingCommas sub) with
        | some v => .ok v
        | none => .error msgParseFail
    | none =>
      match anyJsonSub cs with
      | some sub =>
        match jsonParse sub with
        | some v => .ok v
        | none => .error msgParseFail
      | none => .error msgNoJson

/-! ### Unwrapping and per-record normalization (`part_003` lines 430-505) -/

/-- Search the keys `results`, `items`, `data`, `array` for an array value. -/
def pickArrayKey (j : Json) : List String → Option (List Json)
  | [] => none
  | k :: ks =>
    match getField j k with
    | some (.arr xs) => some xs
    | _ => pickArrayKey j ks

/-- `part_003` lines 430-448: accept an array directly, or unwrap an object through
the first of the keys `results`/`items`/`data`/`array` holding an array. -/
def unwrapArr : Json → Option (List Json)
  | .arr xs => some xs
  | .obj fs => pickArrayKey (.obj fs) ["results", "items", "data", "array"]
  | _ => none

/-- `part_003` lines 451-457: `required` passes `true`/`false`/`null` through
verbatim (`none` encodes `null`) and maps anything else to `false`. -/
def normRequired (v : Option Json) : Option Bool :=
  match v with
  | some (.bool b) => some b
  | some .null => none
  | _ => some false

/-- Membership in the canonical IO triple. -/
def ioCanonical (t : String) : Bool := t = "Input" || t = "Output" || t = "Action"

/-- `part_003` lines 464-482: normalize a truthy string IO value: keep an exact
canonical form, else match `input`/`output`/`action` case-insensitively after
trimming, else default to `Output`. -/
def normIOStr (s : String) : String :=
  if ioCanonical (String.mk (trimChars s.data)) then String.mk (trimChars s.data)
  else if lowerStr (String.mk (trimChars s.data)) = "input" then "Input"
  else if lowerStr (String.mk (trimChars s.data)) = "output" then "Output"
  else if lowerStr (String.mk (trimChars s.data)) = "action" then "Action"
  else "Output"

/-- `part_003` lines 459-489: normalize the IO value (already reduced through the
`io || inputOutput || IO || InputOutput` chain) to `Input`/`Output`/`Action`,
defaulting to `Output` for falsy, absent, or non-string values. -/
def normIO (v : Option Json) : String :=
  match v with
  | some j =>
    if truthy j then
      match j with
      | .str s => normIOStr s
      | _ => "Output"
    else "Output"
  | none => "Output"

/-- One normalized record, with the exact fields built by `part_003` lines 491-504.
Fields that the code fills with `v || default` keep the JS value they receive;
`io` is always a string and `required` is the tri-state (`none` encodes `null`). -/
structure NormItem where
  id : Json
  itemId : Json
  order : Json
  content : Json
  type : Json
  database : Json
  description : Json
  imageProcessingResultId : Json
  dataType : Json
  dbField : Json
  io : String
  required : Option Bool

/-- `part_003` lines 450-505: normalization of one parsed array element at `index`. -/
def normalizeItem (j : Json) (index : Nat) : NormItem :=
  { id := jsOrD (getField j "id") (Json.num (index + 1))
  , itemId := jsOrD (getField j "itemId") (Json.num (index + 1))
  , order := jsOrD (getField j "order") (Json.num (index + 1))
  , content := jsOrD (getField j "content") (Json.str "Unknown")
  , type := jsOrD (getField j "type") (Json.str "Text")
  , database := jsOrD (getField j "database")
      (jsOrD (getField j "dataSource") (Json.str "unknown_db"))
  , description := jsOrD (getField j "description") (Json.str "No description")
  , imageProcessingResultId := jsOrD (getField j "imageProcessingResultId") (Json.num 0)
  , dataType := jsOrD (getField j "dataType") (Json.str "string")
  , dbField := jsOrD (getField j "dbField") (Json.str "content_field")
  , io := normIO (jsOrO (getField j "io") (jsOrO (getField j "inputOutput")
      (jsOrO (getField j "IO") (getField j "InputOutput"))))
  , required := normRequired (getField j "required") }

/-- `parsedResults.map((item, index) => ...)` starting at index `k`. -/
def normalizeFrom (k : Nat) : List Json → List NormItem
  | [] => []
  | j :: rest => normalizeItem j k :: normalizeFrom (k + 1) rest

/-- The full per-record normalization of a parsed array. -/
def normalizeList (elems : List Json) : List NormItem := normalizeFrom 0 elems

/-- The normalization pipeline of `callChatGPTAPI` from the point where the
completion text is in hand: trim, strip markdown fences, run the four parse
attempts, unwrap to an array, and normalize each record.  `Except.error`
corresponds to the JS code throwing (zero records returned). -/
def normalizePipeline (content : String) : Except String (List NormItem) :=
  match parseAttempts (stripFences (trimChars content.data)) with
  | .error e => .error e
  | .ok v =>
    match unwrapArr v with
    | some elems => .ok (normalizeList elems)
    | none => .error msgNotArray

/-! ### `TableView.formatType` (`TableView.tsx` lines 352-363) -/

/-- The `value`s of `typeOptions` in `TableView.tsx` lines 134-145 (labels coincide). -/
def typeOptions : List String :=
  ["Label", "Textbox", "Number", "Dropdown", "Icon", "Button", "Image", "Toggle",
   "Radio button", "Hyperlink"]

/-- `charAt(0).toUpperCase() + slice(1)`. -/
def capitalizeFirst : List Char → List Char
  | [] => []
  | c :: rest => asciiUpper c :: rest

/-- `TableView.formatType`: empty stays empty; otherwise lower-case, fix the first
occurrence of the typo `botton`, match case-insensitively against the allow-list and
use the canonical label, else capitalize the first letter. -/
def formatType (t : String) : String :=
  if t = "" then ""
  else
    let fixed := String.mk (replaceFirstList "botton".data "button".data (lowerStr t).data)
    match typeOptions.find? (fun opt => lowerStr opt == fixed) with
    | some opt => opt
    | none => String.mk (capitalizeFirst fixed.data)

/-! ### TableView edit-mode state machine (`TableView.tsx` lines 125-248)

`items` is the baseline prop (TableView never mutates it), `isEditing` and
`editedItems` are the component state; `currentItems` is the working set the
table renders. -/

/-- The `ProcessedItem` interface of `TableView.tsx` lines 82-95 (without the
display-only `stt`).  Optional TS fields are `Option`s; `required?: boolean | null`
is `Option (Option Bool)` with `none` = absent and `some none` = `null`. -/
structure ProcessedItem where
  id : Nat
  itemId : Nat
  content : String
  type : String
  database : Option String
  description : String
  imageProcessingResultId : Nat
  dataType : Option String
  dbField : Option String
  io : Option String
  required : Option (Option Bool)

/-- A field edit as issued by the editors in the table body: text inputs write
strings, the type/data-type/io dropdowns write strings, the database input writes
`null` for the sentinel `-`, and the required dropdown writes `boolean | null`. -/
inductive FieldUpdate where
  | setContent (v : String)
  | setType (v : String)
  | setDataType (v : String)
  | setIo (v : String)
  | setDatabase (v : Option String)
  | setRequired (v : Option Bool)
  | setDescription (v : String)

/-- The spread `\x7b ...item, [field]: value \x7d` for one edit. -/
def applyUpdate (it : ProcessedItem) : FieldUpdate → ProcessedItem
  | .setContent v => { it with content := v }
  | .setType v => { it with type := v }
  | .setDataType v => { it with dataType := some v }
  | .setIo v => { it with io := some v }
  | .setDatabase v => { it with database := v }
  | .setRequired v => { it with required := some v }
  | .setDescription v => { it with description := v }

/-- TableView state: the `items` prop plus the `isEditing` / `editedItems` state. -/
structure TVState where
  items : List ProcessedItem
  isEditing : Bool
  editedItems : List ProcessedItem

/-- Initial state for a given baseline record set. -/
def tvInit (baseline : List ProcessedItem) : TVState :=
  { items := baseline, isEditing := false, editedItems := [] }

/-- `handleEdit`: snapshot the prop into the scratch buffer and enter edit mode. -/
def tvHandleEdit (s : TVState) : TVState :=
  { s with editedItems := s.items, isEditing := true }

/-- `handleCancel`: leave edit mode and drop the scratch buffer. -/
def tvHandleCancel (s : TVState) : TVState :=
  { s with isEditing := false, editedItems := [] }

/-- `handleFieldChange`: rewrite the matching row of the scratch buffer only. -/
def tvHandleFieldChange (s : TVState) (id : Nat) (u : FieldUpdate) : TVState :=
  { s with editedItems :=
      s.editedItems.map (fun it => if it.id = id then applyUpdate it u else it) }

/-- Whether the awaited `onSave(editedItems)` collaborator resolved or rejected. -/
inductive SaveOutcome where
  | resolved
  | rejected

/-- `handleSave` (`TableView.tsx` lines 217-230): on a resolved collaborator the
component leaves edit mode and clears the scratch buffer; a rejection lands in the
`catch` block, which only logs, leaving the state untouched. -/
def tvHandleSave (s : TVState) : SaveOutcome → TVState
  | .resolved => { s with isEditing := false, editedItems := [] }
  | .rejected => s

/-- `currentItems` (`TableView.tsx` line 248): the working set the table renders. -/
def currentItems (s : TVState) : List ProcessedItem :=
  if s.isEditing then s.editedItems else s.items

/-- A sequence of edits applied through `handleFieldChange`. -/
def applyEdits (s : TVState) (edits : List (Nat × FieldUpdate)) : TVState :=
  edits.foldl (fun st e => tvHandleFieldChange st e.1 e.2) s

/-- The same sequence of edits as a pure list transformation. -/
def applyEditsItems (items : List ProcessedItem) (edits : List (Nat × FieldUpdate)) :
    List ProcessedItem :=
  edits.foldl
    (fun its e => its.map (fun it => if it.id = e.1 then applyUpdate it e.2 else it)) items

/-- `ProjectDetailScreen.handleSave` (lines 220-268) as the `onSave` collaborator:
it awaits `chatGPTService.updateProjectDetail` (which itself never throws and
reports failure as `success: false`), turns a failure report into a local throw,
and catches every error in its own `try/catch` to show a message — so the promise
returned to TableView resolves regardless of whether the underlying save succeeded. -/
def projectDetailSaveOutcome (_saveSucceeded : Bool) : SaveOutcome :=
  SaveOutcome.resolved

/-- The commit operation as wired in ProjectDetailScreen: TableView's `handleSave`
awaiting `ProjectDetailScreen.handleSave`. -/
def commitViaProjectDetail (s : TVState) (saveSucceeded : Bool) : TVState :=
  tvHandleSave s (projectDetailSaveOutcome saveSucceeded)

/-! ### CSV exporters -/

/-- `.replace(/"/g, '""')`: double every double quote. -/
def escChars : List Char → List Char
  | [] => []
  | c :: rest => if c = '\"' then '\"' :: '\"' :: escChars rest else c :: escChars rest

/-- A field exported as `"..."` with quotes doubled (content/description). -/
def quoteWrap (s : String) : List Char := '\"' :: (escChars s.data ++ ['\"'])

/-- A field exported as `"..."` with NO escaping (type/dataType/io/database in
`ProjectDetailScreen.exportToCSV`). -/
def rawQuote (s : String) : List Char := '\"' :: (s.data ++ ['\"'])

/-- `Array.prototype.join(',')` at character level. -/
def joinCells : List (List Char) → List Char
  | [] => []
  | [x] => x
  | x :: rest => x ++ ',' :: joinCells rest

/-- `Array.prototype.join('\n')` at character level. -/
def joinRows : List (List Char) → List Char
  | [] => []
  | [x] => x
  | x :: rest => x ++ '\n' :: joinRows rest

/-- Decimal digit character. -/
def digitCh : Nat → Char
  | 0 => '0'
  | 1 => '1'
  | 2 => '2'
  | 3 => '3'
  | 4 => '4'
  | 5 => '5'
  | 6 => '6'
  | 7 => '7'
  | 8 => '8'
  | _ => '9'

/-- Fuel-indexed decimal rendering (the fuel always suffices below). -/
def natCharsAux : Nat → Nat → List Char
  | 0, _ => []
  | fuel + 1, n =>
    if n < 10 then [digitCh n]
    else natCharsAux fuel (n / 10) ++ [digitCh (n % 10)]

/-- JS number-to-string for the natural numbers used as `STT` values. -/
def natChars (n : Nat) : List Char := natCharsAux (n + 1) n

/-- `v || d` on TS `string | undefined` / `string | null` values. -/
def jsOrStr (v : Option String) (d : String) : String :=
  match v with
  | some s => if s = "" then d else s
  | none => d

/-- `formatRequired` of `ProjectDetailScreen.exportToCSV` (lines 278-283). -/
def formatRequired : Option (Option Bool) → String
  | some (some true) => "Có"
  | some (some false) => "Không"
  | some none => "Không xác định"
  | none => ""

/-- `map` carrying the array index, starting at `k`. -/
def mapIdxFrom (k : Nat) (f : Nat → α → β) : List α → List β
  | [] => []
  | x :: rest => f k x :: mapIdxFrom (k + 1) f rest

/-- The `ProcessedItem` interface of `ResultDisplay.tsx` restricted to the fields
its CSV export serializes (`database` is a non-nullable string there). -/
structure RDItem where
  content : String
  type : String
  database : String
  description : String

/-- One data row of `ResultDisplay.handleExportCSV` (lines 119-125): STT plus the
four text fields, each quoted with quotes doubled. -/
def exportRDRow (i : Nat) (it : RDItem) : List Char :=
  joinCells [natChars (i + 1), quoteWrap it.content, quoteWrap it.type,
             quoteWrap it.database, quoteWrap it.description]

/-- `ResultDisplay.handleExportCSV` (lines 114-126), non-editing path. -/
def exportRDChars (results : List RDItem) : List Char :=
  joinRows ("STT,Content,Type,Database,Description".data :: mapIdxFrom 0 exportRDRow results)

/-- The CSV text produced by `ResultDisplay.handleExportCSV`. -/
def exportRD (results : List RDItem) : String := String.mk (exportRDChars results)

/-- One data row of `ProjectDetailScreen.exportToCSV` (lines 300-309): only
`content` and `description` have their quotes escaped; `type`, `dataType`, `io`,
`database` and the formatted `required` are interpolated raw inside quotes. -/
def exportPDSRow (i : Nat) (it : ProcessedItem) : List Char :=
  joinCells [natChars (i + 1), quoteWrap it.content, rawQuote it.type,
             rawQuote (jsOrStr it.dataType ""), rawQuote (jsOrStr it.io "Output"),
             rawQuote (jsOrStr it.database "-"), rawQuote (formatRequired it.required),
             quoteWrap it.description]

/-- `ProjectDetailScreen.exportToCSV` (lines 270-310). -/
def exportPDSChars (items : List ProcessedItem) : List Char :=
  joinRows ("STT,Tên item,Type,Data Type,Input/Output,Data Source,Required,Mô tả".data
    :: mapIdxFrom 0 exportPDSRow items)

/-- The CSV text produced by `ProjectDetailScreen.exportToCSV`. -/
def exportPDS (items : List ProcessedItem) : String := String.mk (exportPDSChars items)

/-! ### CSV re-parser

Modelled from the spec: the claim's re-parser — "splitting on commas that are
outside double quotes and unescaping doubled quotes" — extended in the only
natural way to rows (newlines outside double quotes end a row).  This definition
follows the specification's words; it is not repository code. -/

/-- Quote-aware scanner: split the text into rows of raw fields.  A `"` toggles
the in-quotes flag (and is kept in the raw field); `,` and newline split only
outside quotes. -/
def scanCsv : List Char → Bool → List Char → List (List Char) →
    List (List (List Char)) → List (List (List Char))
  | [], _, cur, row, acc => acc ++ [row ++ [cur]]
  | c :: cs, inQ, cur, row, acc =>
    if c = '\"' then scanCsv cs (!inQ) (cur ++ ['\"']) row acc
    else if inQ = false ∧ c = ',' then scanCsv cs inQ [] (row ++ [cur]) acc
    else if inQ = false ∧ c = '\n' then scanCsv cs inQ [] [] (acc ++ [row ++ [cur]])
    else scanCsv cs inQ (cur ++ [c]) row acc

/-- Unescape doubled quotes, left to right. -/
def unescChars : List Char → List Char
  | [] => []
  | [c] => [c]
  | c :: c2 :: rest =>
    if c = '\"' ∧ c2 = '\"' then '\"' :: unescChars rest
    else c :: unescChars (c2 :: rest)

/-- Decode one raw field: strip a surrounding quote pair and unescape doubled
quotes; fields not wrapped in quotes are kept as they are. -/
def parseFieldChars (cs : List Char) : List Char :=
  match cs with
  | [] => []
  | c :: rest =>
    if c = '\"' then
      if rest.getLast? = some '\"' then unescChars rest.dropLast else c :: rest
    else c :: rest

/-- The re-parser described by the claim: rows of decoded fields. -/
def csvParseSpec (s : String) : List (List String) :=
  (scanCsv s.data false [] [] []).map (fun row => row.map (fun f => String.mk (parseFieldChars f)))

/-! ### Re-viewing a normalized record as a JS object (for the idempotence claim) -/

/-- The tri-state `required` as the JS value the record carries. -/
def requiredToJson : Option Bool → Json
  | some b => Json.bool b
  | none => Json.null

/-- The normalized record seen again as the JS object the `map` callback returned
(`part_003` lines 491-504): exactly the twelve produced fields. -/
def NormItem.toJson (r : NormItem) : Json :=
  Json.obj [("id", r.id), ("itemId", r.itemId), ("order", r.order), ("content", r.content),
            ("type", r.type), ("database", r.database), ("description", r.description),
            ("imageProcessingResultId", r.imageProcessingResultId), ("dataType", r.dataType),
            ("dbField", r.dbField), ("io", Json.str r.io), ("required", requiredToJson r.required)]

/-! ### CSV cells

An abstraction of the three field shapes the two exporters emit: a bare value
(the `STT` number), a quoted-and-escaped value, and a quoted-but-unescaped value. -/

/-- One exported CSV field. -/
inductive Cell where
  | plain (u : List Char)
  | quoted (s : String)
  | rawq (u : List Char)

/-- The characters the exporter emits for the field. -/
def Cell.raw : Cell → List Char
  | .plain u => u
  | .quoted s => '\"' :: (escChars s.data ++ ['\"'])
  | .rawq u => '\"' :: (u ++ ['\"'])

/-- The value the field denotes. -/
def Cell.val : Cell → List Char
  | .plain u => u
  | .quoted s => s.data
  | .rawq u => u

/-- A character that cannot disturb an unquoted field. -/
abbrev neutralChar (c : Char) : Prop := c ≠ '\"' ∧ c ≠ ',' ∧ c ≠ '\n'

/-- Well-formedness: a plain cell has only neutral characters; an unescaped quoted
cell has no embedded quote; an escaped quoted cell is always fine. -/
def Cell.wf : Cell → Prop
  | .plain u => ∀ c ∈ u, neutralChar c
  | .quoted _ => True
  | .rawq u => ∀ c ∈ u, c ≠ '\"'

/-- No double quote anywhere in the string. -/
abbrev noQuote (s : String) : Prop := ∀ c ∈ s.data, c ≠ '\"'

/-- The rows `ProjectDetailScreen.exportToCSV` emits are safe exactly when the four
unescaped fields (as displayed) carry no double quote. -/
abbrev pdsRowOk (it : ProcessedItem) : Prop :=
  noQuote it.type ∧ noQuote (jsOrStr it.dataType "") ∧ noQuote (jsOrStr it.io "Output") ∧
    noQuote (jsOrStr it.database "-")

/-- The cells of one `ResultDisplay` data row. -/
def rdRowCells (i : Nat) (it : RDItem) : List Cell :=
  [.plain (natChars (i + 1)), .quoted it.content, .quoted it.type, .quoted it.database,
   .quoted it.description]

/-- The cells of the `ResultDisplay` header row. -/
def rdHeaderCells : List Cell :=
  [.plain "STT".data, .plain "Content".data, .plain "Type".data, .plain "Database".data,
   .plain "Description".data]

/-- The cells of one `ProjectDetailScreen` data row. -/
def pdsRowCells (i : Nat) (it : ProcessedItem) : List Cell :=
  [.plain (natChars (i + 1)), .quoted it.content, .rawq it.type.data,
   .rawq (jsOrStr it.dataType "").data, .rawq (jsOrStr it.io "Output").data,
   .rawq (jsOrStr it.database "-").data, .rawq (formatRequired it.required).data,
   .quoted it.description]

/-- The cells of the `ProjectDetailScreen` header row. -/
def pdsHeaderCells : List Cell :=
  [.plain "STT".data, .plain "Tên item".data, .plain "Type".data, .plain "Data Type".data,
   .plain "Input/Output".data, .plain "Data Source".data, .plain "Required".data,
   .plain "Mô tả".data]

/-! ### Concrete instances used by scenario theorems, witnesses and counterexamples -/

/-- The completion text of the §8 scenario claim. -/
def c4Completion : String :=
  "```json\n[\x7b\"content\":\"Save\",\"type\":\"button\",\"required\":true\x7d]\n```"

/-- A completion text that is not JSON, has no bracketed fragment, and contains no
`content` key fragment. -/
def cexBadCompletion : String := "no json here!!"

/-- Array input for the C2 witness. -/
def c2WitnessElems : List Json :=
  [Json.obj [("content", Json.str "Save"), ("type", Json.str "button")],
   Json.obj [("required", Json.null)]]

/-- Baseline row for the commit-failure counterexample. -/
def cexBaseItem : ProcessedItem :=
  { id := 1, itemId := 1, content := "A", type := "Label", database := none
  , description := "desc", imageProcessingResultId := 0, dataType := none
  , dbField := none, io := none, required := none }

/-- The TableView state after entering edit mode on `[cexBaseItem]` and editing the
content field of row 1 from `A` to `B`. -/
def cexEditedState : TVState :=
  applyEdits (tvHandleEdit (tvInit [cexBaseItem])) [(1, FieldUpdate.setContent "B")]

/-- A record whose `database` value contains a double quote, which
`ProjectDetailScreen.exportToCSV` does not escape. -/
def cexQuoteItem : ProcessedItem :=
  { id := 1, itemId := 1, content := "c", type := "t", database := some "a\"b"
  , description := "d", imageProcessingResultId := 0, dataType := none
  , dbField := none, io := none, required := some (some false) }

/-- A quote-free record whose content and description carry an embedded comma,
newline and doubled quote, for the round-trip witness. -/
def c7WitnessItem : ProcessedItem :=
  { id := 1, itemId := 1, content := "a,b", type := "t", database := none
  , description := "l1\nl2 \"q\"", imageProcessingResultId := 0, dataType := none
  , dbField := none, io := none, required := some (some false) }

/-! ## Helper lemmas -/

theorem truthy_ne_null (x : Json) (h : truthy x = true) : x ≠ Json.null := by
  intro he; subst he; simp [truthy] at h

theorem jsOrD_some_eq (x d : Json) : jsOrD (some x) d = if truthy x then x else d := rfl

theorem jsOrD_of_truthy (x : Json) (d : Json) (h : truthy x = true) :
    jsOrD (some x) d = x := by
  rw [jsOrD_some_eq, if_pos h]

theorem jsOrD_of_falsy (x : Json) (d : Json) (h : truthy x = false) :
    jsOrD (some x) d = d := by
  rw [jsOrD_some_eq, if_neg (by simp [h])]

theorem jsOrD_ne_null (v : Option Json) (d : Json) (hd : truthy d = true) :
    jsOrD v d ≠ Json.null := by
  rcases v with _ | x
  · exact truthy_ne_null d hd
  · rcases hx : truthy x with _ | _
    · rw [jsOrD_of_falsy x d hx]; exact truthy_ne_null d hd
    · rw [jsOrD_of_truthy x d hx]; exact truthy_ne_null x hx

theorem jsOrD_falsy_eq (v : Option Json) (d : Json) (h : truthy (jsOrD v d) = false) :
    jsOrD v d = d := by
  rcases v with _ | x
  · rfl
  · rcases hx : truthy x with _ | _
    · exact jsOrD_of_falsy x d hx
    · exfalso
      rw [jsOrD_of_truthy x d hx, hx] at h
      exact Bool.noConfusion h

theorem jsOrD_falsy_eq2 (x y : Option Json) (u : Json)
    (h : truthy (jsOrD x (jsOrD y u)) = false) : jsOrD x (jsOrD y u) = u := by
  have h1 := jsOrD_falsy_eq x (jsOrD y u) h
  have h2 : truthy (jsOrD y u) = false := by rw [← h1]; exact h
  rw [h1, jsOrD_falsy_eq y u h2]

theorem jsOrD_absorb_of (v : Option Json) (d' d : Json)
    (h : truthy (jsOrD v d') = false → jsOrD v d' = d) :
    jsOrD (some (jsOrD v d')) d = jsOrD v d' := by
  rcases ht : truthy (jsOrD v d') with _ | _
  · rw [jsOrD_of_falsy _ _ ht, h ht]
  · rw [jsOrD_of_truthy _ _ ht]

theorem jsOrD_absorb (v : Option Json) (d : Json) :
    jsOrD (some (jsOrD v d)) d = jsOrD v d :=
  jsOrD_absorb_of v d d (jsOrD_falsy_eq v d)

theorem jsOrD_absorb2 (x y : Option Json) (u : Json) :
    jsOrD (some (jsOrD x (jsOrD y u))) u = jsOrD x (jsOrD y u) :=
  jsOrD_absorb_of x (jsOrD y u) u (jsOrD_falsy_eq2 x y u)

theorem truthy_num_of_ne (n : Int) (h : n ≠ 0) : truthy (Json.num n) = true := by
  simp [truthy]; exact h

theorem truthy_jsOrD_default (v : Option Json) (d : Json) (hd : truthy d = true) :
    truthy (jsOrD v d) = true := by
  rcases v with _ | x
  · exact hd
  · rcases hx : truthy x with _ | _
    · rw [jsOrD_of_falsy x d hx]; exact hd
    · rw [jsOrD_of_truthy x d hx]; exact hx

theorem normRequired_roundtrip (q : Option Bool) :
    normRequired (some (requiredToJson q)) = q := by
  rcases q with _ | b
  · rfl
  · cases b <;> rfl

theorem normIOStr_cases (s : String) :
    normIOStr s = "Input" ∨ normIOStr s = "Output" ∨ normIOStr s = "Action" := by
  unfold normIOStr
  by_cases hc : ioCanonical (String.mk (trimChars s.data)) = true
  · rw [if_pos hc]
    rcases (show String.mk (trimChars s.data) = "Input" ∨
        String.mk (trimChars s.data) = "Output" ∨
        String.mk (trimChars s.data) = "Action" by
      simpa [ioCanonical, or_assoc] using hc) with h | h | h
    · exact Or.inl h
    · exact Or.inr (Or.inl h)
    · exact Or.inr (Or.inr h)
  · rw [if_neg hc]
    by_cases h1 : lowerStr (String.mk (trimChars s.data)) = "input"
    · rw [if_pos h1]; exact Or.inl rfl
    · rw [if_neg h1]
      by_cases h2 : lowerStr (String.mk (trimChars s.data)) = "output"
      · rw [if_pos h2]; exact Or.inr (Or.inl rfl)
      · rw [if_neg h2]
        by_cases h3 : lowerStr (String.mk (trimChars s.data)) = "action"
        · rw [if_pos h3]; exact Or.inr (Or.inr rfl)
        · rw [if_neg h3]; exact Or.inr (Or.inl rfl)

theorem normIO_some (j : Json) :
    normIO (some j) =
      if truthy j then
        (match j with
         | Json.str s => normIOStr s
         | _ => "Output")
      else "Output" := rfl

theorem normIO_cases (v : Option Json) :
    normIO v = "Input" ∨ normIO v = "Output" ∨ normIO v = "Action" := by
  rcases v with _ | j
  · exact Or.inr (Or.inl rfl)
  · rw [normIO_some]
    rcases hj : truthy j with _ | _
    · rw [if_neg (by simp)]
      exact Or.inr (Or.inl rfl)
    · rw [if_pos rfl]
      rcases j with _ | b | n | s | xs | fs
      · exact Or.inr (Or.inl rfl)
      · exact Or.inr (Or.inl rfl)
      · exact Or.inr (Or.inl rfl)
      · exact normIOStr_cases s
      · exact Or.inr (Or.inl rfl)
      · exact Or.inr (Or.inl rfl)

theorem opt_bool_cases (x : Option Bool) :
    x = some true ∨ x = some false ∨ x = none := by
  rcases x with _ | b
  · tauto
  · cases b <;> tauto

theorem NormItem.ext (a b : NormItem)
    (h1 : a.id = b.id) (h2 : a.itemId = b.itemId) (h3 : a.order = b.order)
    (h4 : a.content = b.content) (h5 : a.type = b.type) (h6 : a.database = b.database)
    (h7 : a.description = b.description)
    (h8 : a.imageProcessingResultId = b.imageProcessingResultId)
    (h9 : a.dataType = b.dataType) (h10 : a.dbField = b.dbField)
    (h11 : a.io = b.io) (h12 : a.required = b.required) : a = b := by
  cases a; cases b; simp_all

/-- After the `||` chain and normalization, feeding a canonical IO string back in
(with any further chain tail) reproduces it. -/
theorem normIO_of_canonical (c : String)
    (hc : c = "Input" ∨ c = "Output" ∨ c = "Action") (w : Option Json) :
    normIO (jsOrO (some (Json.str c)) w) = c := by
  rcases hc with rfl | rfl | rfl <;> rfl

/-- Re-normalizing the object a normalized record denotes (at the same array
position) reproduces the record: every default the code supplies is itself kept by
a second pass of the `v || d` rules, `io` is already canonical, and `required` is
already tri-state. -/
theorem normalizeItem_toJson_idem (j : Json) (k : Nat) :
    normalizeItem (NormItem.toJson (normalizeItem j k)) k = normalizeItem j k := by
  refine NormItem.ext _ _ ?_ ?_ ?_ ?_ ?_ ?_ ?_ ?_ ?_ ?_ ?_ ?_
  · exact jsOrD_absorb (getField j "id") (Json.num ((k : Int) + 1))
  · exact jsOrD_absorb (getField j "itemId") (Json.num ((k : Int) + 1))
  · exact jsOrD_absorb (getField j "order") (Json.num ((k : Int) + 1))
  · exact jsOrD_absorb (getField j "content") (Json.str "Unknown")
  · exact jsOrD_absorb (getField j "type") (Json.str "Text")
  · exact jsOrD_absorb2 (getField j "database") (getField j "dataSource")
      (Json.str "unknown_db")
  · exact jsOrD_absorb (getField j "description") (Json.str "No description")
  · exact jsOrD_absorb (getField j "imageProcessingResultId") (Json.num 0)
  · exact jsOrD_absorb (getField j "dataType") (Json.str "string")
  · exact jsOrD_absorb (getField j "dbField") (Json.str "content_field")
  · exact normIO_of_canonical _ (normIO_cases _) _
  · exact normRequired_roundtrip _

theorem normalizeFrom_toJson_idem (l : List Json) (k : Nat) :
    normalizeFrom k ((normalizeFrom k l).map NormItem.toJson) = normalizeFrom k l := by
  induction l generalizing k with
  | nil => rfl
  | cons j rest ih =>
    show normalizeItem (NormItem.toJson (normalizeItem j k)) k ::
        normalizeFrom (k + 1) ((normalizeFrom (k + 1) rest).map NormItem.toJson) = _
    rw [normalizeItem_toJson_idem, ih]
    rfl

/-- Claim C6: the per-record defaulting/coercion step is idempotent — re-running
the normalization map over the objects an already-normalized record set denotes
yields the identical record set. -/
theorem normalize_idempotent (elems : List Json) :
    normalizeList ((normalizeList elems).map NormItem.toJson) = normalizeList elems :=
  normalizeFrom_toJson_idem elems 0

/-- The `(normalizeItem j k).required` projection as the coercion of the raw field. -/
theorem normalizeItem_required (j : Json) (k : Nat) :
    (normalizeItem j k).required = normRequired (getField j "required") := rfl

/-- Claim C3: `required` values `true`, `false`, `null` pass through verbatim; any
other value of the field (string, number, array, object) and an absent field
normalize to `false`. -/
theorem normalize_required_tristate (j : Json) (k : Nat) :
    (∀ b, getField j "required" = some (Json.bool b) → (normalizeItem j k).required = some b) ∧
    (getField j "required" = some Json.null → (normalizeItem j k).required = none) ∧
    (∀ s, getField j "required" = some (Json.str s) → (normalizeItem j k).required = some false) ∧
    (∀ n, getField j "required" = some (Json.num n) → (normalizeItem j k).required = some false) ∧
    (∀ xs, getField j "required" = some (Json.arr xs) → (normalizeItem j k).required = some false) ∧
    (∀ fs, getField j "required" = some (Json.obj fs) → (normalizeItem j k).required = some false) ∧
    (getField j "required" = none → (normalizeItem j k).required = some false) := by
  refine ⟨fun b h => ?_, fun h => ?_, fun s h => ?_, fun n h => ?_, fun xs h => ?_,
          fun fs h => ?_, fun h => ?_⟩ <;>
    rw [normalizeItem_required, h] <;> rfl

/-- Witness for C3 at concrete inputs. -/
theorem normalize_required_tristate_witness :
    (normalizeItem (Json.obj [("required", Json.bool true)]) 0).required = some true ∧
    (normalizeItem (Json.obj [("required", Json.null)]) 0).required = none ∧
    (normalizeItem (Json.obj [("required", Json.str "yes")]) 0).required = some false ∧
    (normalizeItem (Json.obj [("required", Json.num 1)]) 0).required = some false ∧
    (normalizeItem (Json.obj [("content", Json.str "x")]) 0).required = some false :=
  ⟨(normalize_required_tristate _ 0).1 true rfl,
   (normalize_required_tristate _ 0).2.1 rfl,
   (normalize_required_tristate _ 0).2.2.1 "yes" rfl,
   (normalize_required_tristate _ 0).2.2.2.1 1 rfl,
   (normalize_required_tristate _ 0).2.2.2.2.2.2 rfl⟩

/-- The `(normalizeItem j k).id` projection as the defaulting of the raw field. -/
theorem normalizeItem_id (j : Json) (k : Nat) :
    (normalizeItem j k).id = jsOrD (getField j "id") (Json.num (k + 1)) := rfl

/-- Claim C5 counterexample: the input object `[("id", -5)]` at array position 0 is
normalized with `id = -5` — the code keeps any truthy `id` (the `item.id || index+1`
idiom), so a negative id taken from the input does appear in the output, contrary
to the claim that only positive integers pass through. -/
theorem negative_id_passes_through :
    (normalizeItem (Json.obj [("id", Json.num (-5)), ("content", Json.str "x")]) 0).id
        = Json.num (-5) ∧
    Json.num (-5) ≠ Json.num (0 + 1) := by
  refine ⟨rfl, fun h => ?_⟩
  simp at h

/-- Claim C5 (amended): the normalized `id` equals the provided value whenever that
value is truthy (which includes negative numbers and non-empty strings), and falls
back to `index + 1` exactly when the field is absent or falsy (`0`, `null`, `""`,
`false`). -/
theorem normalize_id_truthy_passthrough (j : Json) (k : Nat) :
    (∀ v, getField j "id" = some v → truthy v = true → (normalizeItem j k).id = v) ∧
    (∀ v, getField j "id" = some v → truthy v = false →
        (normalizeItem j k).id = Json.num (k + 1)) ∧
    (getField j "id" = none → (normalizeItem j k).id = Json.num (k + 1)) := by
  refine ⟨fun v h ht => ?_, fun v h hf => ?_, fun h => ?_⟩
  · rw [normalizeItem_id, h, jsOrD_of_truthy v _ ht]
  · rw [normalizeItem_id, h, jsOrD_of_falsy v _ hf]
  · rw [normalizeItem_id, h]; rfl

/-- Witness for the amended C5 at concrete inputs. -/
theorem normalize_id_truthy_passthrough_witness :
    (normalizeItem (Json.obj [("id", Json.num 7)]) 3).id = Json.num 7 ∧
    (normalizeItem (Json.obj [("id", Json.num 0)]) 3).id = Json.num (3 + 1) ∧
    (normalizeItem (Json.obj [("content", Json.str "x")]) 3).id = Json.num (3 + 1) :=
  ⟨(normalize_id_truthy_passthrough _ 3).1 (Json.num 7) rfl rfl,
   (normalize_id_truthy_passthrough _ 3).2.1 (Json.num 0) rfl rfl,
   (normalize_id_truthy_passthrough _ 3).2.2 rfl⟩

/-- Claim C10: a present-but-falsy field is treated exactly like an absent one:
empty `content` becomes `Unknown`, empty `description` becomes `No description`,
empty `dataType` becomes `string`, empty `dbField` becomes `content_field`, empty
`database` becomes `unknown_db` (when no `dataSource` is present to shadow it, since
the chain is `database || dataSource || "unknown_db"`), and `id = 0` falls back to
`index + 1`. -/
theorem falsy_fields_defaulted (j : Json) (k : Nat) :
    (getField j "content" = some (Json.str "") →
        (normalizeItem j k).content = Json.str "Unknown") ∧
    (getField j "description" = some (Json.str "") →
        (normalizeItem j k).description = Json.str "No description") ∧
    (getField j "dataType" = some (Json.str "") →
        (normalizeItem j k).dataType = Json.str "string") ∧
    (getField j "dbField" = some (Json.str "") →
        (normalizeItem j k).dbField = Json.str "content_field") ∧
    (getField j "database" = some (Json.str "") → getField j "dataSource" = none →
        (normalizeItem j k).database = Json.str "unknown_db") ∧
    (getField j "id" = some (Json.num 0) → (normalizeItem j k).id = Json.num (k + 1)) := by
  refine ⟨fun h => ?_, fun h => ?_, fun h => ?_, fun h => ?_, fun h h2 => ?_, fun h => ?_⟩
  · show jsOrD (getField j "content") (Json.str "Unknown") = _
    rw [h]; rfl
  · show jsOrD (getField j "description") (Json.str "No description") = _
    rw [h]; rfl
  · show jsOrD (getField j "dataType") (Json.str "string") = _
    rw [h]; rfl
  · show jsOrD (getField j "dbField") (Json.str "content_field") = _
    rw [h]; rfl
  · show jsOrD (getField j "database")
        (jsOrD (getField j "dataSource") (Json.str "unknown_db")) = _
    rw [h, h2]; rfl
  · rw [normalizeItem_id, h]; rfl

theorem normalizeFrom_length (l : List Json) (k : Nat) :
    (normalizeFrom k l).length = l.length := by
  induction l generalizing k with
  | nil => rfl
  | cons j rest ih => simp [normalizeFrom, ih]

theorem normalizeFrom_mem (l : List Json) (k : Nat) (r : NormItem)
    (hr : r ∈ normalizeFrom k l) : ∃ j m, j ∈ l ∧ r = normalizeItem j m := by
  induction l generalizing k with
  | nil => simp [normalizeFrom] at hr
  | cons j rest ih =>
    rcases (by simpa [normalizeFrom] using hr : r = normalizeItem j k ∨
        r ∈ normalizeFrom (k + 1) rest) with h | h
    · exact ⟨j, k, by simp, h⟩
    · obtain ⟨j2, m, hmem, heq⟩ := ih (k + 1) h
      exact ⟨j2, m, by simp [hmem], heq⟩

/-- Every field of a normalized record is defined and non-null where the claim
demands it: the defaults the code supplies are all truthy (or, for
`imageProcessingResultId`, the field is still a defined number), `io` lands in the
canonical triple, and `required` is exactly tri-state. -/
theorem normalizeItem_populated (j : Json) (k : Nat) :
    (normalizeItem j k).id ≠ Json.null ∧
    (normalizeItem j k).content ≠ Json.null ∧
    (normalizeItem j k).type ≠ Json.null ∧
    (normalizeItem j k).database ≠ Json.null ∧
    (normalizeItem j k).description ≠ Json.null ∧
    (normalizeItem j k).dataType ≠ Json.null ∧
    (normalizeItem j k).dbField ≠ Json.null ∧
    ((normalizeItem j k).io = "Input" ∨ (normalizeItem j k).io = "Output" ∨
      (normalizeItem j k).io = "Action") ∧
    ((normalizeItem j k).required = some true ∨ (normalizeItem j k).required = some false ∨
      (normalizeItem j k).required = none) := by
  have hnum : truthy (Json.num ((k : Int) + 1)) = true :=
    truthy_num_of_ne _ (by omega)
  refine ⟨?_, ?_, ?_, ?_, ?_, ?_, ?_, ?_, ?_⟩
  · exact jsOrD_ne_null _ _ hnum
  · exact jsOrD_ne_null _ _ (by decide)
  · exact jsOrD_ne_null _ _ (by decide)
  · exact jsOrD_ne_null _ _ (truthy_jsOrD_default _ _ (by decide))
  · exact jsOrD_ne_null _ _ (by decide)
  · exact jsOrD_ne_null _ _ (by decide)
  · exact jsOrD_ne_null _ _ (by decide)
  · exact normIO_cases _
  · exact opt_bool_cases _

/-- Claim C2: for a parsed JSON array of N well-formed objects, normalization
returns exactly N records, and in each record every claim-listed field is
populated (`≠ null` for the value fields, a canonical string for `io`, and a
defined tri-state for `required`); definedness itself is forced by the `v || d`
defaulting the embedding mirrors. -/
theorem normalize_length_and_fields_populated (elems : List Json)
    (_h : elems.all Json.isObj = true) :
    (normalizeList elems).length = elems.length ∧
    ∀ r ∈ normalizeList elems,
      r.id ≠ Json.null ∧ r.content ≠ Json.null ∧ r.type ≠ Json.null ∧
      r.database ≠ Json.null ∧ r.description ≠ Json.null ∧ r.dataType ≠ Json.null ∧
      r.dbField ≠ Json.null ∧
      (r.io = "Input" ∨ r.io = "Output" ∨ r.io = "Action") ∧
      (r.required = some true ∨ r.required = some false ∨ r.required = none) := by
  refine ⟨normalizeFrom_length elems 0, fun r hr => ?_⟩
  obtain ⟨j, m, _, rfl⟩ := normalizeFrom_mem elems 0 r hr
  exact normalizeItem_populated j m

/-- Witness for C2 at a concrete two-object array. -/
theorem normalize_length_and_fields_populated_witness :
    (c2WitnessElems.all Json.isObj = true) ∧
    (normalizeList c2WitnessElems).length = c2WitnessElems.length ∧
    ∀ r ∈ normalizeList c2WitnessElems,
      r.id ≠ Json.null ∧ r.content ≠ Json.null ∧ r.type ≠ Json.null ∧
      r.database ≠ Json.null ∧ r.description ≠ Json.null ∧ r.dataType ≠ Json.null ∧
      r.dbField ≠ Json.null ∧
      (r.io = "Input" ∨ r.io = "Output" ∨ r.io = "Action") ∧
      (r.required = some true ∨ r.required = some false ∨ r.required = none) :=
  ⟨rfl, (normalize_length_and_fields_populated c2WitnessElems rfl).1,
    (normalize_length_and_fields_populated c2WitnessElems rfl).2⟩

/-- Witness for C10 at a concrete all-falsy input object. -/
theorem falsy_fields_defaulted_witness :
    (normalizeItem (Json.obj [("id", Json.num 0), ("content", Json.str ""),
        ("description", Json.str ""), ("dataType", Json.str ""), ("dbField", Json.str ""),
        ("database", Json.str "")]) 4).content = Json.str "Unknown" ∧
    (normalizeItem (Json.obj [("id", Json.num 0), ("content", Json.str ""),
        ("description", Json.str ""), ("dataType", Json.str ""), ("dbField", Json.str ""),
        ("database", Json.str "")]) 4).description = Json.str "No description" ∧
    (normalizeItem (Json.obj [("id", Json.num 0), ("content", Json.str ""),
        ("description", Json.str ""), ("dataType", Json.str ""), ("dbField", Json.str ""),
        ("database", Json.str "")]) 4).dataType = Json.str "string" ∧
    (normalizeItem (Json.obj [("id", Json.num 0), ("content", Json.str ""),
        ("description", Json.str ""), ("dataType", Json.str ""), ("dbField", Json.str ""),
        ("database", Json.str "")]) 4).dbField = Json.str "content_field" ∧
    (normalizeItem (Json.obj [("id", Json.num 0), ("content", Json.str ""),
        ("description", Json.str ""), ("dataType", Json.str ""), ("dbField", Json.str ""),
        ("database", Json.str "")]) 4).database = Json.str "unknown_db" ∧
    (normalizeItem (Json.obj [("id", Json.num 0), ("content", Json.str ""),
        ("description", Json.str ""), ("dataType", Json.str ""), ("dbField", Json.str ""),
        ("database", Json.str "")]) 4).id = Json.num (4 + 1) :=
  ⟨(falsy_fields_defaulted _ 4).1 rfl,
   (falsy_fields_defaulted _ 4).2.1 rfl,
   (falsy_fields_defaulted _ 4).2.2.1 rfl,
   (falsy_fields_defaulted _ 4).2.2.2.1 rfl,
   (falsy_fields_defaulted _ 4).2.2.2.2.1 rfl rfl,
   (falsy_fields_defaulted _ 4).2.2.2.2.2 rfl⟩

/-! ## TableView edit/commit/discard claims -/

theorem applyEdits_state (base scratch : List ProcessedItem) (editing : Bool)
    (edits : List (Nat × FieldUpdate)) :
    applyEdits ⟨base, editing, scratch⟩ edits
      = ⟨base, editing, applyEditsItems scratch edits⟩ := by
  induction edits generalizing scratch with
  | nil => rfl
  | cons e rest ih =>
    show applyEdits ⟨base, editing,
        scratch.map (fun it => if it.id = e.1 then applyUpdate it e.2 else it)⟩ rest = _
    rw [ih]
    rfl

theorem applyEdits_after_edit (B : List ProcessedItem) (edits : List (Nat × FieldUpdate)) :
    applyEdits (tvHandleEdit (tvInit B)) edits = ⟨B, true, applyEditsItems B edits⟩ :=
  applyEdits_state B B true edits

/-- Claim C1 counterexample: with the commit wired through
`ProjectDetailScreen.handleSave` (which catches the failure of
`chatGPTService.updateProjectDetail` and resolves normally), a failed save still
makes TableView leave edit mode and clear the scratch buffer, so the working set
reverts to the baseline (`content = "A"`) and the edited value (`"B"`) is lost —
contradicting the claim that after a failed commit the working set still contains
the edited values and the scratch buffer is preserved. -/
theorem commit_failure_swallowed_loses_edits :
    cexEditedState.editedItems.map ProcessedItem.content = ["B"] ∧
    (commitViaProjectDetail cexEditedState false).isEditing = false ∧
    (commitViaProjectDetail cexEditedState false).editedItems = [] ∧
    currentItems (commitViaProjectDetail cexEditedState false) = [cexBaseItem] ∧
    (currentItems (commitViaProjectDetail cexEditedState false)).map ProcessedItem.content
      = ["A"] :=
  ⟨rfl, rfl, rfl, rfl, rfl⟩

/-- Claim C1 (amended): when the `onSave` collaborator rejects (throws), TableView's
`handleSave` lands in its catch block and leaves the state untouched: for every
baseline and every sequence of field edits, after the failed commit the working set
is still the edited scratch buffer (not the baseline), the baseline is unchanged,
and the scratch buffer is preserved.  (The counterexample shows this fails when the
collaborator is `ProjectDetailScreen.handleSave`, which swallows the failure.) -/
theorem commit_rejection_preserves_edits (B : List ProcessedItem)
    (edits : List (Nat × FieldUpdate)) :
    tvHandleSave (applyEdits (tvHandleEdit (tvInit B)) edits) SaveOutcome.rejected
        = ⟨B, true, applyEditsItems B edits⟩ ∧
    (tvHandleSave (applyEdits (tvHandleEdit (tvInit B)) edits) SaveOutcome.rejected).items
        = B ∧
    currentItems (tvHandleSave (applyEdits (tvHandleEdit (tvInit B)) edits)
        SaveOutcome.rejected)
      = applyEditsItems B edits := by
  have h : tvHandleSave (applyEdits (tvHandleEdit (tvInit B)) edits) SaveOutcome.rejected
      = ⟨B, true, applyEditsItems B edits⟩ := by
    show applyEdits (tvHandleEdit (tvInit B)) edits = _
    exact applyEdits_after_edit B edits
  exact ⟨h, by rw [h], by rw [h]; rfl⟩

/-- Claim C8: entering edit mode, applying any sequence of field edits, and then
cancelling restores the exact initial state — the working record set is the
baseline `B`, untouched by the edits, which only ever lived in the scratch buffer. -/
theorem discard_restores_baseline (B : List ProcessedItem)
    (edits : List (Nat × FieldUpdate)) :
    tvHandleCancel (applyEdits (tvHandleEdit (tvInit B)) edits) = tvInit B ∧
    currentItems (tvHandleCancel (applyEdits (tvHandleEdit (tvInit B)) edits)) = B ∧
    (applyEdits (tvHandleEdit (tvInit B)) edits).items = B := by
  rw [applyEdits_after_edit B edits]
  exact ⟨rfl, rfl, rfl⟩

/-! ## Parse-failure claims -/

theorem parseAttempts_error (cs : List Char) (m : String)
    (h : parseAttempts cs = Except.error m) : m = msgParseFail ∨ m = msgNoJson := by
  unfold parseAttempts at h
  rcases h1 : jsonParse cs with _ | v <;> simp only [h1] at h
  · rcases h2 : arraySub cs with _ | sub <;> simp only [h2] at h
    · rcases h3 : anyJsonSub cs with _ | sub2 <;> simp only [h3] at h
      · simp only [Except.error.injEq] at h
        exact Or.inr h.symm
      · rcases h4 : jsonParse sub2 with _ | v2 <;> simp only [h4] at h
        · simp only [Except.error.injEq] at h
          exact Or.inl h.symm
        · simp at h
    · rcases h3 : jsonParse sub with _ | v2 <;> simp only [h3] at h
      · rcases h4 : jsonParse (stripTrailingCommas sub) with _ | v3 <;> simp only [h4] at h
        · simp only [Except.error.injEq] at h
          exact Or.inl h.symm
        · simp at h
      · simp at h
  · simp at h

/-- Claim C9 counterexample: on the concrete completion `no json here!!` — which is
not JSON, contains no bracketed fragment, and contains no `content` key fragment —
the pipeline throws the fixed message `msgNoJson`, and that message does not
contain the offending text (nor any prefix of it beyond the empty string, since
`containsSub` of the whole is false): the error carries no diagnostic preview of
the offending input (the code only logs the preview to the console), contradicting
the claim as stated. -/
theorem parse_error_message_lacks_preview :
    normalizePipeline cexBadCompletion = Except.error msgNoJson ∧
    containsSub cexBadCompletion.data msgNoJson.data = false ∧
    containsSub "content".data cexBadCompletion.data = false :=
  ⟨rfl, by decide, by decide⟩

/-- Claim C9 (amended): whenever the normalizer fails, it fails with one of the
three fixed, non-empty Vietnamese error messages (parse failure, no JSON found, or
not-an-array) — never with an empty message and never with a truncated record set
(`Except.error` carries no records); the diagnostic preview of the offending text
goes to the console log only, not into the error. -/
theorem parse_error_messages_fixed (s m : String)
    (h : normalizePipeline s = Except.error m) :
    (m = msgParseFail ∨ m = msgNoJson ∨ m = msgNotArray) ∧ m ≠ "" := by
  have hm : m = msgParseFail ∨ m = msgNoJson ∨ m = msgNotArray := by
    unfold normalizePipeline at h
    rcases h1 : parseAttempts (stripFences (trimChars s.data)) with e | v <;>
      simp only [h1] at h
    · simp only [Except.error.injEq] at h
      rcases parseAttempts_error _ _ (h ▸ h1) with h2 | h2
      · exact Or.inl h2
      · exact Or.inr (Or.inl h2)
    · rcases h2 : unwrapArr v with _ | elems <;> simp only [h2] at h
      · simp only [Except.error.injEq] at h
        exact Or.inr (Or.inr h.symm)
      · simp at h
  refine ⟨hm, ?_⟩
  rcases hm with rfl | rfl | rfl <;> decide

/-- Witness for the amended C9 at a concrete unparseable completion. -/
theorem parse_error_messages_fixed_witness :
    normalizePipeline "xxx" = Except.error msgNoJson ∧
    ((msgNoJson = msgParseFail ∨ msgNoJson = msgNoJson ∨ msgNoJson = msgNotArray) ∧
      msgNoJson ≠ "") :=
  ⟨rfl, parse_error_messages_fixed "xxx" msgNoJson rfl⟩

/-! ## The §8 scenario claim -/

/-- Claim C4: the completion text consisting of a `json`-annotated markdown fence
around `[ \x7b content: Save, type: button, required: true \x7d ]` normalizes to
exactly one record carrying `type = "button"` (rendered as the canonical label
`Button` by `TableView.formatType`), `required = true`, `dataType = "string"`,
`io = "Output"`, and `dbField = "content_field"`. -/
theorem scenario_button_record :
    normalizePipeline c4Completion =
      Except.ok [{ id := Json.num 1, itemId := Json.num 1, order := Json.num 1
                 , content := Json.str "Save", type := Json.str "button"
                 , database := Json.str "unknown_db"
                 , description := Json.str "No description"
                 , imageProcessingResultId := Json.num 0, dataType := Json.str "string"
                 , dbField := Json.str "content_field", io := "Output"
                 , required := some true }] ∧
    formatType "button" = "Button" :=
  ⟨rfl, rfl⟩

/-! ## CSV round-trip claims -/

theorem scanCsv_nil (inQ : Bool) (cur : List Char) (row : List (List Char))
    (acc : List (List (List Char))) :
    scanCsv [] inQ cur row acc = acc ++ [row ++ [cur]] := rfl

theorem scanCsv_cons (c : Char) (cs : List Char) (inQ : Bool) (cur : List Char)
    (row : List (List Char)) (acc : List (List (List Char))) :
    scanCsv (c :: cs) inQ cur row acc =
      if c = '\"' then scanCsv cs (!inQ) (cur ++ ['\"']) row acc
      else if inQ = false ∧ c = ',' then scanCsv cs inQ [] (row ++ [cur]) acc
      else if inQ = false ∧ c = '\n' then scanCsv cs inQ [] [] (acc ++ [row ++ [cur]])
      else scanCsv cs inQ (cur ++ [c]) row acc := rfl

theorem scanCsv_quote (cs : List Char) (inQ : Bool) (cur : List Char)
    (row : List (List Char)) (acc : List (List (List Char))) :
    scanCsv ('\"' :: cs) inQ cur row acc = scanCsv cs (!inQ) (cur ++ ['\"']) row acc := by
  rw [scanCsv_cons, if_pos rfl]

theorem scanCsv_comma (cs : List Char) (cur : List Char) (row : List (List Char))
    (acc : List (List (List Char))) :
    scanCsv (',' :: cs) false cur row acc = scanCsv cs false [] (row ++ [cur]) acc := by
  rw [scanCsv_cons, if_neg (by decide), if_pos ⟨rfl, rfl⟩]

theorem scanCsv_newline (cs : List Char) (cur : List Char) (row : List (List Char))
    (acc : List (List (List Char))) :
    scanCsv ('\n' :: cs) false cur row acc = scanCsv cs false [] [] (acc ++ [row ++ [cur]]) := by
  rw [scanCsv_cons, if_neg (by decide), if_neg (by simp), if_pos ⟨rfl, rfl⟩]

theorem scanCsv_neutral_step (c : Char) (cs : List Char) (cur : List Char)
    (row : List (List Char)) (acc : List (List (List Char))) (hc : neutralChar c) :
    scanCsv (c :: cs) false cur row acc = scanCsv cs false (cur ++ [c]) row acc := by
  rw [scanCsv_cons, if_neg hc.1, if_neg (by simp [hc.2.1]), if_neg (by simp [hc.2.2])]

theorem scanCsv_inquote_step (c : Char) (cs : List Char) (cur : List Char)
    (row : List (List Char)) (acc : List (List (List Char))) (hc : c ≠ '\"') :
    scanCsv (c :: cs) true cur row acc = scanCsv cs true (cur ++ [c]) row acc := by
  rw [scanCsv_cons, if_neg hc, if_neg (by simp), if_neg (by simp)]

theorem scanCsv_neutral_run (u cs : List Char) (cur : List Char) (row : List (List Char))
    (acc : List (List (List Char))) (h : ∀ c ∈ u, neutralChar c) :
    scanCsv (u ++ cs) false cur row acc = scanCsv cs false (cur ++ u) row acc := by
  induction u generalizing cur with
  | nil => simp
  | cons c u ih =>
    rw [List.cons_append, scanCsv_neutral_step c _ cur row acc (h c (by simp)),
        ih (cur ++ [c]) (fun x hx => h x (by simp [hx]))]
    simp

theorem scanCsv_inquote_run (u cs : List Char) (cur : List Char) (row : List (List Char))
    (acc : List (List (List Char))) (h : ∀ c ∈ u, c ≠ '\"') :
    scanCsv (u ++ cs) true cur row acc = scanCsv cs true (cur ++ u) row acc := by
  induction u generalizing cur with
  | nil => simp
  | cons c u ih =>
    rw [List.cons_append, scanCsv_inquote_step c _ cur row acc (h c (by simp)),
        ih (cur ++ [c]) (fun x hx => h x (by simp [hx]))]
    simp

theorem scanCsv_escaped_run (s : List Char) (cs : List Char) (cur : List Char)
    (row : List (List Char)) (acc : List (List (List Char))) :
    scanCsv (escChars s ++ cs) true cur row acc = scanCsv cs true (cur ++ escChars s) row acc := by
  induction s generalizing cur with
  | nil => simp [escChars]
  | cons c s ih =>
    by_cases hc : c = '\"'
    · subst hc
      rw [show escChars ('\"' :: s) = '\"' :: '\"' :: escChars s from by simp [escChars]]
      rw [List.cons_append, List.cons_append, scanCsv_quote, scanCsv_quote]
      simp only [Bool.not_not]
      rw [ih (cur ++ ['\"'] ++ ['\"'])]
      simp
    · rw [show escChars (c :: s) = c :: escChars s from by simp [escChars, hc]]
      rw [List.cons_append, scanCsv_inquote_step c _ cur row acc hc, ih (cur ++ [c])]
      simp

/-- Scanning one well-formed cell accumulates exactly its raw characters. -/
theorem scanCsv_cell (cell : Cell) (hwf : cell.wf) (cs : List Char) (cur : List Char)
    (row : List (List Char)) (acc : List (List (List Char))) :
    scanCsv (cell.raw ++ cs) false cur row acc = scanCsv cs false (cur ++ cell.raw) row acc := by
  cases cell with
  | plain u => exact scanCsv_neutral_run u cs cur row acc hwf
  | quoted s =>
    show scanCsv (('\"' :: (escChars s.data ++ ['\"'])) ++ cs) false cur row acc = _
    rw [List.cons_append, scanCsv_quote, List.append_assoc, List.singleton_append]
    simp only [Bool.not_false]
    rw [scanCsv_escaped_run, scanCsv_quote]
    simp [Cell.raw, List.append_assoc]
  | rawq u =>
    show scanCsv (('\"' :: (u ++ ['\"'])) ++ cs) false cur row acc = _
    rw [List.cons_append, scanCsv_quote, List.append_assoc, List.singleton_append]
    simp only [Bool.not_false]
    rw [scanCsv_inquote_run u _ _ _ _ hwf, scanCsv_quote]
    simp [Cell.raw, List.append_assoc]

/-- Scanning a newline-terminated row of well-formed cells closes exactly one row
holding the raw cells. -/
theorem scanCsv_row_nl (cells : List Cell) (hwf : ∀ cl ∈ cells, cl.wf) (hne : cells ≠ [])
    (cs : List Char) (row : List (List Char)) (acc : List (List (List Char))) :
    scanCsv (joinCells (cells.map Cell.raw) ++ '\n' :: cs) false [] row acc
      = scanCsv cs false [] [] (acc ++ [row ++ cells.map Cell.raw]) := by
  induction cells generalizing row with
  | nil => exact absurd rfl hne
  | cons cell rest ih =>
    rcases rest with _ | ⟨c2, rest2⟩
    · show scanCsv (cell.raw ++ '\n' :: cs) false [] row acc = _
      rw [scanCsv_cell cell (hwf cell (by simp)) _ [] row acc, scanCsv_newline]
      simp
    · show scanCsv ((cell.raw ++ ',' :: joinCells ((c2 :: rest2).map Cell.raw)) ++ '\n' :: cs)
          false [] row acc = _
      rw [List.append_assoc, List.cons_append,
          scanCsv_cell cell (hwf cell (by simp)) _ [] row acc, scanCsv_comma]
      simp only [List.nil_append]
      rw [ih (fun cl hcl => hwf cl (by simp [hcl])) (by simp) (row ++ [cell.raw])]
      simp

/-- Scanning a final (unterminated) row of well-formed cells closes it at the end
of the input. -/
theorem scanCsv_row_end (cells : List Cell) (hwf : ∀ cl ∈ cells, cl.wf) (hne : cells ≠ [])
    (row : List (List Char)) (acc : List (List (List Char))) :
    scanCsv (joinCells (cells.map Cell.raw)) false [] row acc
      = acc ++ [row ++ cells.map Cell.raw] := by
  induction cells generalizing row with
  | nil => exact absurd rfl hne
  | cons cell rest ih =>
    rcases rest with _ | ⟨c2, rest2⟩
    · show scanCsv cell.raw false [] row acc = _
      rw [show cell.raw = cell.raw ++ [] from by simp,
          scanCsv_cell cell (hwf cell (by simp)) [] [] row acc, scanCsv_nil]
      simp
    · show scanCsv (cell.raw ++ ',' :: joinCells ((c2 :: rest2).map Cell.raw)) false [] row acc
          = _
      rw [scanCsv_cell cell (hwf cell (by simp)) _ [] row acc, scanCsv_comma]
      simp only [List.nil_append]
      rw [ih (fun cl hcl => hwf cl (by simp [hcl])) (by simp) (row ++ [cell.raw])]
      simp

/-- Scanning a whole table of well-formed cell rows produces exactly the raw cells,
row by row. -/
theorem scanCsv_table (rows : List (List Cell))
    (hwf : ∀ r ∈ rows, (∀ cl ∈ r, cl.wf) ∧ r ≠ []) (hne : rows ≠ [])
    (acc : List (List (List Char))) :
    scanCsv (joinRows (rows.map (fun r => joinCells (r.map Cell.raw)))) false [] [] acc
      = acc ++ rows.map (fun r => r.map Cell.raw) := by
  induction rows generalizing acc with
  | nil => exact absurd rfl hne
  | cons r rest ih =>
    rcases rest with _ | ⟨r2, rest2⟩
    · show scanCsv (joinCells (r.map Cell.raw)) false [] [] acc = _
      rw [scanCsv_row_end r (hwf r (by simp)).1 (hwf r (by simp)).2 [] acc]
      simp
    · show scanCsv (joinCells (r.map Cell.raw) ++
          '\n' :: joinRows ((r2 :: rest2).map (fun rr => joinCells (rr.map Cell.raw))))
          false [] [] acc = _
      rw [scanCsv_row_nl r (hwf r (by simp)).1 (hwf r (by simp)).2,
          ih (fun rr hrr => hwf rr (by simp [hrr])) (by simp)]
      simp

theorem escChars_cons_quote (s : List Char) :
    escChars ('\"' :: s) = '\"' :: '\"' :: escChars s := by simp [escChars]

theorem escChars_cons_other (c : Char) (s : List Char) (hc : c ≠ '\"') :
    escChars (c :: s) = c :: escChars s := by simp [escChars, hc]

theorem unescChars_noquote (l : List Char) (h : ∀ c ∈ l, c ≠ '\"') :
    unescChars l = l := by
  induction l with
  | nil => rfl
  | cons c rest ih =>
    rcases rest with _ | ⟨c2, rest2⟩
    · rfl
    · rw [show unescChars (c :: c2 :: rest2) =
          if c = '\"' ∧ c2 = '\"' then '\"' :: unescChars rest2
          else c :: unescChars (c2 :: rest2) from rfl]
      rw [if_neg (fun hcc => h c (by simp) hcc.1)]
      rw [ih (fun x hx => h x (by simp [hx]))]

theorem unescChars_escChars (l : List Char) : unescChars (escChars l) = l := by
  induction l with
  | nil => rfl
  | cons c rest ih =>
    by_cases hc : c = '\"'
    · subst hc
      rw [escChars_cons_quote]
      rcases hrest : escChars rest with _ | ⟨x, xs⟩
      · rw [show unescChars ['\"', '\"'] = ['\"'] from rfl]
        have : rest = [] := by
          rcases rest with _ | ⟨a, b⟩
          · rfl
          · by_cases ha : a = '\"' <;> simp [escChars, ha] at hrest
        rw [this]
      · rw [show unescChars ('\"' :: '\"' :: x :: xs) =
            if ('\"' : Char) = '\"' ∧ ('\"' : Char) = '\"' then '\"' :: unescChars (x :: xs)
            else '\"' :: unescChars ('\"' :: x :: xs) from rfl]
        rw [if_pos ⟨rfl, rfl⟩, ← hrest, ih]
    · rw [escChars_cons_other c rest hc]
      rcases hrest : escChars rest with _ | ⟨x, xs⟩
      · have : rest = [] := by
          rcases rest with _ | ⟨a, b⟩
          · rfl
          · by_cases ha : a = '\"' <;> simp [escChars, ha] at hrest
        rw [this]
        rfl
      · rw [show unescChars (c :: x :: xs) =
            if c = '\"' ∧ x = '\"' then '\"' :: unescChars xs
            else c :: unescChars (x :: xs) from rfl]
        rw [if_neg (fun hcc => hc hcc.1), ← hrest, ih]

theorem getLast?_concat_quote (l : List Char) : (l ++ ['\"']).getLast? = some '\"' := by
  simp

/-- Decoding a well-formed cell's raw characters recovers its value. -/
theorem parseField_cell (cell : Cell) (hwf : cell.wf) :
    parseFieldChars cell.raw = cell.val := by
  cases cell with
  | plain u =>
    rcases u with _ | ⟨c, rest⟩
    · rfl
    · have hc : c ≠ '\"' := (hwf c (by simp)).1
      show (if c = '\"' then _ else c :: rest) = (c :: rest)
      rw [if_neg hc]
  | quoted s =>
    show (if ('\"' : Char) = '\"' then
        if (escChars s.data ++ ['\"']).getLast? = some '\"' then
          unescChars (escChars s.data ++ ['\"']).dropLast
        else '\"' :: (escChars s.data ++ ['\"'])
      else '\"' :: (escChars s.data ++ ['\"'])) = s.data
    rw [if_pos rfl, if_pos (getLast?_concat_quote _), List.dropLast_concat,
        unescChars_escChars]
  | rawq u =>
    show (if ('\"' : Char) = '\"' then
        if (u ++ ['\"']).getLast? = some '\"' then unescChars (u ++ ['\"']).dropLast
        else '\"' :: (u ++ ['\"'])
      else '\"' :: (u ++ ['\"'])) = u
    rw [if_pos rfl, if_pos (getLast?_concat_quote _), List.dropLast_concat,
        unescChars_noquote u hwf]

theorem digitCh_neutral (m : Nat) : neutralChar (digitCh m) := by
  unfold digitCh
  split <;> exact ⟨by decide, by decide, by decide⟩

theorem natCharsAux_neutral (fuel n : Nat) : ∀ c ∈ natCharsAux fuel n, neutralChar c := by
  induction fuel generalizing n with
  | zero => simp [natCharsAux]
  | succ fuel ih =>
    rw [natCharsAux]
    split
    · intro c hc
      rw [List.mem_singleton] at hc
      subst hc
      exact digitCh_neutral n
    · intro c hc
      rcases List.mem_append.mp hc with h | h
      · exact ih (n / 10) c h
      · rw [List.mem_singleton] at h
        subst h
        exact digitCh_neutral _

theorem natChars_neutral (n : Nat) : ∀ c ∈ natChars n, neutralChar c :=
  natCharsAux_neutral (n + 1) n

theorem mapIdxFrom_map (k : Nat) (f : Nat → α → β) (g : β → γ) (l : List α) :
    (mapIdxFrom k f l).map g = mapIdxFrom k (fun i x => g (f i x)) l := by
  induction l generalizing k with
  | nil => rfl
  | cons x rest ih => simp [mapIdxFrom, ih]

theorem mapIdxFrom_mem (k : Nat) (f : Nat → α → β) (l : List α) (y : β)
    (hy : y ∈ mapIdxFrom k f l) : ∃ i x, x ∈ l ∧ y = f i x := by
  induction l generalizing k with
  | nil => simp [mapIdxFrom] at hy
  | cons x rest ih =>
    rcases (by simpa [mapIdxFrom] using hy : y = f k x ∨ y ∈ mapIdxFrom (k + 1) f rest)
        with h | h
    · exact ⟨k, x, by simp, h⟩
    · obtain ⟨i, x2, hmem, heq⟩ := ih (k + 1) h
      exact ⟨i, x2, by simp [hmem], heq⟩

theorem plain_wf (u : List Char) (h : ∀ c ∈ u, neutralChar c) : Cell.wf (.plain u) := h

theorem rdHeaderCells_wf : ∀ cl ∈ rdHeaderCells, cl.wf := by
  intro cl hcl
  fin_cases hcl <;> exact plain_wf _ (by decide)

theorem rdRowCells_wf (i : Nat) (it : RDItem) : ∀ cl ∈ rdRowCells i it, cl.wf := by
  intro cl hcl
  simp [rdRowCells] at hcl
  rcases hcl with rfl | rfl | rfl | rfl | rfl
  · exact natChars_neutral (i + 1)
  · trivial
  · trivial
  · trivial
  · trivial

theorem formatRequired_noquote (r : Option (Option Bool)) :
    ∀ c ∈ (formatRequired r).data, c ≠ '\"' := by
  rcases r with _ | (_ | b)
  · decide
  · decide
  · cases b <;> decide

theorem pdsHeaderCells_wf : ∀ cl ∈ pdsHeaderCells, cl.wf := by
  intro cl hcl
  fin_cases hcl <;> exact plain_wf _ (by decide)

theorem pdsRowCells_wf (i : Nat) (it : ProcessedItem) (hok : pdsRowOk it) :
    ∀ cl ∈ pdsRowCells i it, cl.wf := by
  intro cl hcl
  obtain ⟨h1, h2, h3, h4⟩ := hok
  simp [pdsRowCells] at hcl
  rcases hcl with rfl | rfl | rfl | rfl | rfl | rfl | rfl | rfl
  · exact natChars_neutral (i + 1)
  · trivial
  · exact h1
  · exact h2
  · exact h3
  · exact h4
  · exact formatRequired_noquote it.required
  · trivial

theorem exportRD_cells (results : List RDItem) :
    exportRDChars results
      = joinRows ((rdHeaderCells :: mapIdxFrom 0 rdRowCells results).map
          (fun r => joinCells (r.map Cell.raw))) := by
  unfold exportRDChars
  rw [List.map_cons]
  congr 1
  rw [mapIdxFrom_map]
  rfl

theorem exportPDS_cells (items : List ProcessedItem) :
    exportPDSChars items
      = joinRows ((pdsHeaderCells :: mapIdxFrom 0 pdsRowCells items).map
          (fun r => joinCells (r.map Cell.raw))) := by
  unfold exportPDSChars
  rw [List.map_cons]
  congr 1
  rw [mapIdxFrom_map]
  rfl

theorem csvParse_table (rows : List (List Cell))
    (hwf : ∀ r ∈ rows, (∀ cl ∈ r, cl.wf) ∧ r ≠ []) (hne : rows ≠ []) :
    (scanCsv (joinRows (rows.map (fun r => joinCells (r.map Cell.raw)))) false [] [] []).map
        (fun row => row.map (fun f => String.mk (parseFieldChars f)))
      = rows.map (fun r => r.map (fun cl => String.mk cl.val)) := by
  rw [scanCsv_table rows hwf hne [], List.nil_append, List.map_map]
  apply List.map_congr_left
  intro r hr
  simp only [Function.comp_apply, List.map_map]
  apply List.map_congr_left
  intro cl hcl
  simp only [Function.comp_apply]
  rw [parseField_cell cl ((hwf r hr).1 cl hcl)]

/-- Claim C7 counterexample: for the single record `cexQuoteItem` (whose `database`
value `a"b` contains a double quote), re-parsing the CSV that
`ProjectDetailScreen.exportToCSV` emits does not reconstruct the description
(`"d"`): the unescaped quote derails the quote-aware split and the description
field of the parsed data row is lost. -/
theorem pds_csv_quote_in_database_breaks_roundtrip :
    ((csvParseSpec (exportPDS [cexQuoteItem])).getD 1 []).getD 7 "" ≠ "d" ∧
    cexQuoteItem.description = "d" := by
  refine ⟨?_, rfl⟩
  decide

/-- Claim C7 (amended): exporting then re-parsing reconstructs every field —
including contents and descriptions with embedded commas, quotes, and newlines —
unconditionally for `ResultDisplay.handleExportCSV` (which escapes every text
field), and for `ProjectDetailScreen.exportToCSV` under the proviso that the
unescaped fields (`type`, displayed `dataType`, `io`, `database`) contain no double
quote.  The counterexample shows the proviso is necessary. -/
theorem csv_export_roundtrip :
    (∀ results : List RDItem,
      csvParseSpec (exportRD results)
        = ["STT", "Content", "Type", "Database", "Description"]
            :: mapIdxFrom 0 (fun i it => [String.mk (natChars (i + 1)), it.content, it.type,
                it.database, it.description]) results) ∧
    (∀ items : List ProcessedItem, (∀ it ∈ items, pdsRowOk it) →
      csvParseSpec (exportPDS items)
        = ["STT", "Tên item", "Type", "Data Type", "Input/Output", "Data Source",
            "Required", "Mô tả"]
            :: mapIdxFrom 0 (fun i it => [String.mk (natChars (i + 1)), it.content, it.type,
                jsOrStr it.dataType "", jsOrStr it.io "Output", jsOrStr it.database "-",
                formatRequired it.required, it.description]) items) := by
  constructor
  · intro results
    show (scanCsv (exportRDChars results) false [] [] []).map
        (fun row => row.map (fun f => String.mk (parseFieldChars f))) = _
    rw [exportRD_cells results, csvParse_table _ ?wf (by simp)]
    case wf =>
      intro r hr
      rcases (by simpa using hr : r = rdHeaderCells ∨ r ∈ mapIdxFrom 0 rdRowCells results)
          with rfl | h
      · exact ⟨rdHeaderCells_wf, by simp [rdHeaderCells]⟩
      · obtain ⟨i, it, _, rfl⟩ := mapIdxFrom_mem 0 rdRowCells results r h
        exact ⟨rdRowCells_wf i it, by simp [rdRowCells]⟩
    rw [List.map_cons]
    congr 1
    rw [mapIdxFrom_map]
    rfl
  · intro items hok
    show (scanCsv (exportPDSChars items) false [] [] []).map
        (fun row => row.map (fun f => String.mk (parseFieldChars f))) = _
    rw [exportPDS_cells items, csvParse_table _ ?wf (by simp)]
    case wf =>
      intro r hr
      rcases (by simpa using hr : r = pdsHeaderCells ∨ r ∈ mapIdxFrom 0 pdsRowCells items)
          with rfl | h
      · exact ⟨pdsHeaderCells_wf, by simp [pdsHeaderCells]⟩
      · obtain ⟨i, it, hmem, rfl⟩ := mapIdxFrom_mem 0 pdsRowCells items r h
        exact ⟨pdsRowCells_wf i it (hok it hmem), by simp [pdsRowCells]⟩
    rw [List.map_cons]
    congr 1
    rw [mapIdxFrom_map]
    rfl

/-- Witness for the amended C7: a record whose content has an embedded comma and
whose description has an embedded newline and doubled quote survives the
`ProjectDetailScreen` export/re-parse round trip. -/
theorem csv_export_roundtrip_witness :
    (∀ it ∈ [c7WitnessItem], pdsRowOk it) ∧
    csvParseSpec (exportPDS [c7WitnessItem])
      = ["STT", "Tên item", "Type", "Data Type", "Input/Output", "Data Source",
          "Required", "Mô tả"]
          :: mapIdxFrom 0 (fun i it => [String.mk (natChars (i + 1)), it.content, it.type,
              jsOrStr it.dataType "", jsOrStr it.io "Output", jsOrStr it.database "-",
              formatRequired it.required, it.description]) [c7WitnessItem] :=
  ⟨by decide, csv_export_roundtrip.2 [c7WitnessItem] (by decide)⟩

end BAProc
